import Mathlib

/-!
Shallow embedding of the angler configuration subsystem
(`src/utils/time.rs`, `src/ctx/config.rs`) and proofs about it.

Rust strings are modelled as lists of characters (`Str`), Rust's
`time::Duration` as an exact integer count of nanoseconds, fallible Rust
functions as `Except`/`Option` values, and a panic (`expect`/`unwrap`)
as an error value of the surrounding result type where it can occur.
-/

namespace Angler

/-- Characters of a Rust `&str`, in order. -/
abbrev Str := List Char

/-- The character list of a Lean string literal. -/
def strOf (s : String) : Str := s.data

/-- Rust `char::is_whitespace`: the Unicode White_Space property. -/
def isRustWhitespace (c : Char) : Bool :=
  c = ' ' || c = '\t' || c = '\n' || c = '\x0b' || c = '\x0c' || c = '\r' ||
  c = '\u0085' || c = '\u00a0' || c = '\u1680' ||
  ('\u2000' ≤ c && c ≤ '\u200a') ||
  c = '\u2028' || c = '\u2029' || c = '\u202f' || c = '\u205f' || c = '\u3000'

/-- Rust `str::trim_start`. -/
def trimStart (s : Str) : Str := s.dropWhile isRustWhitespace

/-- Rust `str::trim_end`. -/
def trimEnd (s : Str) : Str := (s.reverse.dropWhile isRustWhitespace).reverse

/-- Rust `str::trim`. -/
def trim (s : Str) : Str := trimEnd (trimStart s)

/-- Rust `str::starts_with(c)` for a single character. -/
def startsWithCh (s : Str) (c : Char) : Bool :=
  match s with
  | [] => false
  | a :: _ => a = c

/-- Rust `str::ends_with(c)` for a single character. -/
def endsWithCh (s : Str) (c : Char) : Bool :=
  match s with
  | [] => false
  | _ :: _ => s.getLast? = some c

/-- Rust `str::split(sep)` for a single-character separator: `n` occurrences
of the separator yield `n + 1` pieces, so the result is never empty and the
empty string yields one empty piece. -/
def splitCh (sep : Char) : Str → List Str
  | [] => [[]]
  | c :: cs =>
    if c = sep then [] :: splitCh sep cs
    else
      match splitCh sep cs with
      | [] => [[c]]
      | p :: ps => (c :: p) :: ps

/-- Rust `[&str]::join(sep)` for a single-character separator. -/
def joinCh (sep : Char) : List Str → Str
  | [] => []
  | [p] => p
  | p :: q :: ps => p ++ sep :: joinCh sep (q :: ps)

/-- An ASCII decimal digit. -/
def isAsciiDigit (c : Char) : Bool := '0' ≤ c && c ≤ '9'

/-- The numeric value of a big-endian ASCII digit string. -/
def digitsToNat (ds : Str) : Nat :=
  ds.foldl (fun acc c => acc * 10 + (c.toNat - 48)) 0

def I64_MAX : Int := 9223372036854775807
def I64_MIN : Int := -9223372036854775808
def USIZE_MAX : Nat := 18446744073709551615
def U32_MAX : Nat := 4294967295
def U16_MAX : Nat := 65535

/-- Rust `str::parse` for an unsigned integer type whose maximum value is
`max`: an optional leading `+`, then one or more ASCII digits, rejecting
values above `max`. -/
def parseUnsigned (max : Nat) (s : Str) : Option Nat :=
  let ds := if s.head? = some '+' then s.tail else s
  if ds ≠ [] && ds.all isAsciiDigit then
    let n := digitsToNat ds
    if n ≤ max then some n else none
  else none

/-- Rust `str::parse::<i64>`: an optional `+` or `-`, then one or more ASCII
digits, rejecting values outside the i64 range. -/
def parseI64 (s : Str) : Option Int :=
  if s.head? = some '-' then
    let mag := s.tail
    if mag ≠ [] && mag.all isAsciiDigit then
      let n := digitsToNat mag
      if (n : Int) ≤ -I64_MIN then some (-(n : Int)) else none
    else none
  else (parseUnsigned I64_MAX.toNat s).map Int.ofNat

/-- `time::Duration`, as an exact count of nanoseconds. The crate stores a
64-bit second count plus a sub-second nanosecond count; every value this
program constructs keeps the second count within i64, so the unbounded
integer is a faithful model of the constructed values. -/
structure Duration where
  nanos : Int
deriving DecidableEq, Repr

def NANOS_PER_SEC : Int := 1000000000

/-- `Duration::seconds`. -/
def Duration.seconds (n : Int) : Duration := ⟨n * NANOS_PER_SEC⟩

/-- The crate's panic message when a unit constructor's `checked_mul`
on the second count overflows i64. -/
def overflowConstructing : String := "overflow constructing `time::Duration`"

/-- The crate's panic message when `Add for Duration` overflows. -/
def overflowAdding : String := "overflow when adding durations"

/-- `Duration::minutes`: 60 seconds each; the crate panics when the second
count overflows i64 (modelled as an error carrying the panic message). -/
def Duration.minutes (n : Int) : Except String Duration :=
  if I64_MIN ≤ n * 60 ∧ n * 60 ≤ I64_MAX then .ok (Duration.seconds (n * 60))
  else .error overflowConstructing

/-- `Duration::hours`: 3600 seconds each, panicking on i64 overflow. -/
def Duration.hours (n : Int) : Except String Duration :=
  if I64_MIN ≤ n * 3600 ∧ n * 3600 ≤ I64_MAX then .ok (Duration.seconds (n * 3600))
  else .error overflowConstructing

/-- `Duration::days`: 86400 seconds each, panicking on i64 overflow. -/
def Duration.days (n : Int) : Except String Duration :=
  if I64_MIN ≤ n * 86400 ∧ n * 86400 ≤ I64_MAX then .ok (Duration.seconds (n * 86400))
  else .error overflowConstructing

/-- `Duration::weeks`: 604800 seconds each, panicking on i64 overflow. -/
def Duration.weeks (n : Int) : Except String Duration :=
  if I64_MIN ≤ n * 604800 ∧ n * 604800 ≤ I64_MAX then .ok (Duration.seconds (n * 604800))
  else .error overflowConstructing

/-- `Duration::milliseconds` (total: every i64 millisecond count is
representable). -/
def Duration.milliseconds (n : Int) : Duration := ⟨n * 1000000⟩

/-- The largest nanosecond count a `time::Duration` represents:
i64::MAX seconds plus 999999999 nanoseconds. -/
def DURATION_MAX_NANOS : Int := I64_MAX * NANOS_PER_SEC + 999999999

/-- The smallest representable nanosecond count. -/
def DURATION_MIN_NANOS : Int := I64_MIN * NANOS_PER_SEC - 999999999

/-- The crate's `Add for Duration` (also reached through `+=` and `Sum`):
`checked_add` followed by an `expect`, panicking when the sum is not
representable. -/
def Duration.checkedAdd (a b : Duration) : Except String Duration :=
  if DURATION_MIN_NANOS ≤ a.nanos + b.nanos ∧ a.nanos + b.nanos ≤ DURATION_MAX_NANOS then
    .ok ⟨a.nanos + b.nanos⟩
  else .error overflowAdding

/-- `iter().sum()` over durations: a left fold of the crate's panicking
`Add` starting from `Duration::ZERO`. -/
def Duration.sumChecked (l : List Duration) : Except String Duration :=
  l.foldl (fun acc d => acc.bind (fun a => Duration.checkedAdd a d)) (.ok ⟨0⟩)

/-- `Duration::whole_seconds` (integer division truncating toward zero,
as Rust's `/` on integers). -/
def Duration.whole_seconds (d : Duration) : Int := d.nanos.tdiv NANOS_PER_SEC

/-- `Duration::whole_days`. -/
def Duration.whole_days (d : Duration) : Int := d.whole_seconds.tdiv 86400

/-- `Duration::whole_hours`. -/
def Duration.whole_hours (d : Duration) : Int := d.whole_seconds.tdiv 3600

/-- `Duration::whole_milliseconds`. -/
def Duration.whole_milliseconds (d : Duration) : Int := d.nanos.tdiv 1000000

/-- `DurationSequenceError` from `src/utils/time.rs`. -/
inductive DurationSequenceError where
  | EmptySequence
deriving DecidableEq, Repr

/-- `DurationSequence` from `src/utils/time.rs`: a vector of durations with
a cached total. -/
structure DurationSequence where
  sequence : List Duration
  total_duration : Duration
deriving DecidableEq, Repr

/-- `DurationSequence::from_vec`. The length check precedes the sum, so
the empty vector is an `EmptySequence` error; `iter().sum()` may panic on
overflow (the outer `Except String` layer). -/
def DurationSequence.from_vec (dur_seq : List Duration) :
    Except String (Except DurationSequenceError DurationSequence) :=
  if dur_seq.length = 0 then .ok (.error .EmptySequence)
  else
    match Duration.sumChecked dur_seq with
    | .error p => .error p
    | .ok total_duration =>
      .ok (.ok { sequence := dur_seq, total_duration := total_duration })

/-- `DurationSequence::get_from_sequence`. -/
def DurationSequence.get_from_sequence (self : DurationSequence) (index : Nat) :
    Option Duration :=
  self.sequence.get? index

/-- `DurationSequence::get_from_sequence_or_first`. The inner
`self.sequence.get(0).unwrap()` panics when the sequence is empty; the
panic is modelled as a `none` result. -/
def DurationSequence.get_from_sequence_or_first (self : DurationSequence) (index : Nat) :
    Option Duration :=
  match self.get_from_sequence index with
  | some d => some d
  | none => self.sequence.get? 0

/-- `DurationSequence::push`: `+=` on the total uses the crate's panicking
`Add`, so the push itself can panic. -/
def DurationSequence.push (self : DurationSequence) (d : Duration) :
    Except String DurationSequence :=
  (Duration.checkedAdd self.total_duration d).map
    (fun total_duration => { sequence := self.sequence ++ [d], total_duration })

/-- `DurationSerdeErrors` from `src/utils/time.rs`. -/
inductive DurationSerdeErrors where
  | InvalidSyntax
deriving DecidableEq, Repr

/-- The capture groups produced by matching the anchored pattern of
`duration_unit_syntax_regex`, one or more digits followed by a single unit
letter: the digit string and the unit character. A match exists exactly when
the input is a non-empty digit string followed by one of the five unit
letters, and then both groups are determined. Rust's digit class also takes
non-ASCII Unicode digits, but any such match later fails `i64` parsing with
the same `InvalidSyntax` result that a failed match produces, so ASCII
digits model the observable behavior exactly. -/
def durationCaptures (s : Str) : Option (Str × Char) :=
  match s.getLast? with
  | none => none
  | some u =>
    let ds := s.dropLast
    if ds ≠ [] && ds.all isAsciiDigit &&
        (u = 's' || u = 'm' || u = 'h' || u = 'd' || u = 'w') then
      some (ds, u)
    else none

/-- The `match unit` arm of `to_duration`: the five unit constructors of
the source (four of which can panic on overflow, the outer layer), and the
unreachable catch-all returning `InvalidSyntax`. -/
def unitResult (number : Int) (unit : Char) :
    Except String (Except DurationSerdeErrors Duration) :=
  match unit with
  | 's' => .ok (.ok (Duration.seconds number))
  | 'm' => (Duration.minutes number).map (fun d => .ok d)
  | 'h' => (Duration.hours number).map (fun d => .ok d)
  | 'd' => (Duration.days number).map (fun d => .ok d)
  | 'w' => (Duration.weeks number).map (fun d => .ok d)
  | _ => .ok (.error .InvalidSyntax)

/-- `<&str as DurationDeserializer>::to_duration` from `src/utils/time.rs`.
The outer `Except String` carries a constructor-overflow panic; the inner
`Except DurationSerdeErrors` is the function's own `Result`. -/
def to_duration (self : Str) : Except String (Except DurationSerdeErrors Duration) :=
  match durationCaptures self with
  | some (number_str, unit) =>
    match parseI64 number_str with
    | none => .ok (.error .InvalidSyntax)
    | some number => unitResult number unit
  | none => .ok (.error .InvalidSyntax)

/-- `Result::unwrap` on a `DurationSequence` result: an `Err` value panics.
Both call sites in `to_duration_sequence` pass a non-empty vector, so the
panic branch is unreachable there. -/
def unwrapSeq (r : Except DurationSequenceError DurationSequence) :
    Except String DurationSequence :=
  match r with
  | .ok q => .ok q
  | .error _ => .error "called Result::unwrap on an Err value"

/-- `str::trim_matches(&['[', ']'][..])`: removes every leading and every
trailing character that is `[` or `]`. -/
def trimMatchesBrackets (s : Str) : Str :=
  let isBr : Char → Bool := fun c => c = '[' || c = ']'
  ((s.dropWhile isBr).reverse.dropWhile isBr).reverse

/-- The loop of `to_duration_sequence`: trim each piece and parse it,
stopping at the first grammar failure or panic. -/
def parsePieces : List Str → Except String (Except DurationSerdeErrors (List Duration))
  | [] => .ok (.ok [])
  | piece :: rest =>
    match to_duration (trim piece) with
    | .error p => .error p
    | .ok (.error e) => .ok (.error e)
    | .ok (.ok d) =>
      match parsePieces rest with
      | .error p => .error p
      | .ok (.error e) => .ok (.error e)
      | .ok (.ok ds) => .ok (.ok (d :: ds))

/-- `from_vec(v).unwrap()` as `to_duration_sequence` uses it: a panic in
`from_vec`'s sum or in the `unwrap` propagates, a success is the sequence. -/
def fromVecUnwrap (dur_seq : List Duration) :
    Except String (Except DurationSerdeErrors DurationSequence) :=
  match DurationSequence.from_vec dur_seq with
  | .error p => .error p
  | .ok fv => (unwrapSeq fv).map (fun q => .ok q)

/-- `<&str as DurationSequenceDeserializer>::to_duration_sequence` from
`src/utils/time.rs`. The outer `Except String` carries any panic reached
through `to_duration`, `iter().sum()` or `unwrap`. -/
def to_duration_sequence (self : Str) :
    Except String (Except DurationSerdeErrors DurationSequence) :=
  if !(startsWithCh self '[') || !(endsWithCh self ']') then
    match to_duration self with
    | .error p => .error p
    | .ok (.error e) => .ok (.error e)
    | .ok (.ok d) => fromVecUnwrap [d]
  else
    let normalized_str := trimMatchesBrackets self
    match parsePieces (splitCh ',' normalized_str) with
    | .error p => .error p
    | .ok (.error e) => .ok (.error e)
    | .ok (.ok duration_seq) =>
      if duration_seq.length < 1 then .ok (.error .InvalidSyntax)
      else fromVecUnwrap duration_seq

/-! `src/ctx/config.rs`: the raw property map, the two properties decoders,
the configuration model, its builder and its merge. -/

/-- `HashMap<String, String>` as used here: lookup by key, where an insert
replaces any earlier value for the same key. -/
def PropMap := Str → Option Str

/-- `HashMap::new`. -/
def PropMap.empty : PropMap := fun _ => none

/-- `HashMap::insert`. -/
def PropMap.insert (map : PropMap) (k v : Str) : PropMap :=
  fun k' => if k' = k then some v else map k'

/-- `HashMap::get`. -/
def PropMap.get (map : PropMap) (k : Str) : Option Str := map k

/-- A map holding exactly one key. -/
def PropMap.single (k v : Str) : PropMap := PropMap.empty.insert k v

/-- The shared loop body of `properties_file_content_to_map` and
`properties_separate_by_semicolon_to_map` (their code is identical up to
the variable holding one record): trim the record, skip it when it starts
with `#`, split it on `=`, skip it when fewer than two parts result, and
otherwise insert the first part as the key and the remaining parts rejoined
with `=` and trimmed as the value. -/
def insertRecord (map : PropMap) (record : Str) : PropMap :=
  if startsWithCh (trim (trim record)) '#' then map
  else
    match splitCh '=' (trim record) with
    | k :: v :: vs => map.insert k (trim (joinCh '=' (v :: vs)))
    | _ => map

/-- `properties_file_content_to_map` from `src/ctx/config.rs`. -/
def properties_file_content_to_map (file_content : Str) : PropMap :=
  (splitCh '\n' file_content).foldl insertRecord PropMap.empty

/-- `properties_separate_by_semicolon_to_map` from `src/ctx/config.rs`. -/
def properties_separate_by_semicolon_to_map (content : Str) : PropMap :=
  (splitCh ';' content).foldl insertRecord PropMap.empty

/-- `ClusterConfiguration`. -/
structure ClusterConfiguration where
  auth_key : Option Str
  controller_host : Option Str
  request_timeout : Option Duration
deriving DecidableEq, Repr

/-- `ClusterConfiguration::new`. -/
def ClusterConfiguration.new : ClusterConfiguration :=
  { auth_key := none, controller_host := none, request_timeout := none }

/-- `DatabaseConfigurations`. -/
structure DatabaseConfigurations where
  dead_messages_retention : Option Duration
  delivered_messages_retention : Option Duration
deriving DecidableEq, Repr

/-- `DatabaseConfigurations::new`. -/
def DatabaseConfigurations.new : DatabaseConfigurations :=
  { dead_messages_retention := none, delivered_messages_retention := none }

/-- `MessagesProcessorConfigurations`. `workers_count` is a `usize`. -/
structure MessagesProcessorConfigurations where
  message_delivery_timeout : Option Duration
  workers_count : Option Nat
deriving DecidableEq, Repr

/-- `MessagesProcessorConfigurations::new`. -/
def MessagesProcessorConfigurations.new : MessagesProcessorConfigurations :=
  { message_delivery_timeout := none, workers_count := none }

/-- `NetworkingConfiguration`. `client_protocols` is a `HashSet<String>`;
the list model keeps the split pieces in order, which no claim depends on.
`restful_port` is a `u32`. -/
structure NetworkingConfiguration where
  client_protocols : Option (List Str)
  restful_port : Option Nat
deriving DecidableEq, Repr

/-- `NetworkingConfiguration::new`. -/
def NetworkingConfiguration.new : NetworkingConfiguration :=
  { client_protocols := none, restful_port := none }

/-- `RetryPolicyConfiguration`. The two attempt fields are `u16`. -/
structure RetryPolicyConfiguration where
  default_interval : Option DurationSequence
  default_max_attempts : Option Nat
  max_interval_limit : Option Duration
  max_attempts_limit : Option Nat
deriving DecidableEq, Repr

/-- `RetryPolicyConfiguration::new`. -/
def RetryPolicyConfiguration.new : RetryPolicyConfiguration :=
  { default_interval := none, default_max_attempts := none,
    max_interval_limit := none, max_attempts_limit := none }

/-- `Configuration`. -/
structure Configuration where
  cluster : ClusterConfiguration
  database : DatabaseConfigurations
  messages_processor : MessagesProcessorConfigurations
  networking : NetworkingConfiguration
  retry_policy : RetryPolicyConfiguration
deriving DecidableEq, Repr

/-- `Configuration::new`. -/
def Configuration.new : Configuration :=
  { cluster := ClusterConfiguration.new,
    database := DatabaseConfigurations.new,
    messages_processor := MessagesProcessorConfigurations.new,
    networking := NetworkingConfiguration.new,
    retry_policy := RetryPolicyConfiguration.new }

/-- `map.get(key).and_then(|v| Some(dec(v).expect(msg)))`: an absent key
leaves the field unset; a present key whose value `dec` rejects makes the
`expect` panic with `msg`; a panic raised inside the decode itself (the
duration crate's overflow panics) propagates with its own message. -/
def expectDecode {α : Type} (v : Option Str) (dec : Str → Except String (Option α))
    (msg : String) : Except String (Option α) :=
  match v with
  | none => .ok none
  | some raw =>
    match dec raw with
    | .error p => .error p
    | .ok none => .error msg
    | .ok (some a) => .ok (some a)

/-- The decode rule of `cluster.requestTimeout` and
`msgproc.message_delivery_timeout`: `Duration::milliseconds(v.parse())`
with an `i64` parse (never panics on its own). -/
def decodeMilliseconds (v : Str) : Except String (Option Duration) :=
  .ok ((parseI64 v).map Duration.milliseconds)

/-- The decode rule of the two retention keys and
`retryPolicy.limit.maxInterval`: `v.as_str().to_duration()`; a grammar
failure is a rejection, a crate panic propagates. -/
def decodeDuration (v : Str) : Except String (Option Duration) :=
  match to_duration v with
  | .error p => .error p
  | .ok (.ok d) => .ok (some d)
  | .ok (.error _) => .ok none

/-- The decode rule of `retryPolicy.defaults.interval`:
`v.as_str().to_duration_sequence()`. -/
def decodeDurationSequence (v : Str) : Except String (Option DurationSequence) :=
  match to_duration_sequence v with
  | .error p => .error p
  | .ok (.ok q) => .ok (some q)
  | .ok (.error _) => .ok none

/-- The decode rule of `msgproc.workers`: `v.parse::<usize>()`. -/
def decodeUsize (v : Str) : Except String (Option Nat) :=
  .ok (parseUnsigned USIZE_MAX v)

/-- The decode rule of `net.client.restful.port`: `v.parse::<u32>()`. -/
def decodeU32 (v : Str) : Except String (Option Nat) :=
  .ok (parseUnsigned U32_MAX v)

/-- The decode rule of `retryPolicy.defaults.maxAttempts` and
`retryPolicy.limit.maxAttempts`: `v.parse::<u16>()`. -/
def decodeU16 (v : Str) : Except String (Option Nat) :=
  .ok (parseUnsigned U16_MAX v)

/-- The decode rule of `net.client.protocols`:
`v.split(',').map(|v| String::from(v.trim())).collect()`. -/
def decodeProtocols (v : Str) : List Str := (splitCh ',' v).map trim

/-- `Configuration::from_map` from `src/ctx/config.rs`. The fields are
decoded in the source's order; each `expect` panic is modelled as an error
carrying the source's panic message, so the first failing present key
determines the result. -/
def Configuration.from_map (map : PropMap) : Except String Configuration := do
  let auth_key := map.get (strOf "cluster.authKey")
  let controller_host := map.get (strOf "cluster.controller.host")
  let request_timeout ← expectDecode (map.get (strOf "cluster.requestTimeout"))
    decodeMilliseconds "cluster.requestTimeout should be a time in milliseconds >= 0"
  let dead_messages_retention ← expectDecode (map.get (strOf "db.deadMessages.retention"))
    decodeDuration "db.deadMessages.retention has a invalid syntax for Duration"
  let delivered_messages_retention ←
    expectDecode (map.get (strOf "db.deliveredMessages.retention"))
      decodeDuration "db.deliveredMessages.retention has a invalid syntax for Duration"
  let message_delivery_timeout ←
    expectDecode (map.get (strOf "msgproc.message_delivery_timeout"))
      decodeMilliseconds "msgproc.message_delivery_timeout should be in milliseconds"
  let workers_count ← expectDecode (map.get (strOf "msgproc.workers"))
    decodeUsize "msgproc.workers should be integer >= 1"
  let client_protocols := (map.get (strOf "net.client.protocols")).map decodeProtocols
  let restful_port ← expectDecode (map.get (strOf "net.client.restful.port"))
    decodeU32 "net.client.restful.port should be a integer >= 1"
  let default_interval ← expectDecode (map.get (strOf "retryPolicy.defaults.interval"))
    decodeDurationSequence
    "retryPolicy.defaults.interval should have a valid DurationSequence syntax. Example: [1m, 5m, 1d]"
  let default_max_attempts ←
    expectDecode (map.get (strOf "retryPolicy.defaults.maxAttempts"))
      decodeU16 "retryPolicy.defaults.maxAttempts should be a valid integer >= 0"
  let max_interval_limit ← expectDecode (map.get (strOf "retryPolicy.limit.maxInterval"))
    decodeDuration "retryPolicy.limit.maxInterval should have a valid Duration syntax. Example: 30m"
  let max_attempts_limit ← expectDecode (map.get (strOf "retryPolicy.limit.maxAttempts"))
    decodeU16 "retryPolicy.limit.maxAttempts should be a integer >= 1"
  pure
    { cluster :=
        { auth_key := auth_key, controller_host := controller_host,
          request_timeout := request_timeout },
      database :=
        { dead_messages_retention := dead_messages_retention,
          delivered_messages_retention := delivered_messages_retention },
      messages_processor :=
        { message_delivery_timeout := message_delivery_timeout,
          workers_count := workers_count },
      networking :=
        { client_protocols := client_protocols, restful_port := restful_port },
      retry_policy :=
        { default_interval := default_interval,
          default_max_attempts := default_max_attempts,
          max_interval_limit := max_interval_limit,
          max_attempts_limit := max_attempts_limit } }

/-- `Configuration::merge` from `src/ctx/config.rs`: `self` is the mutated
target, `other` the source; each field of `self` that is `None` adopts
`other`'s value, every other field keeps its own. -/
def Configuration.merge (self other : Configuration) : Configuration :=
  { cluster :=
      { auth_key :=
          if self.cluster.auth_key.isNone then other.cluster.auth_key
          else self.cluster.auth_key,
        controller_host :=
          if self.cluster.controller_host.isNone then other.cluster.controller_host
          else self.cluster.controller_host,
        request_timeout :=
          if self.cluster.request_timeout.isNone then other.cluster.request_timeout
          else self.cluster.request_timeout },
    database :=
      { dead_messages_retention :=
          if self.database.dead_messages_retention.isNone then
            other.database.dead_messages_retention
          else self.database.dead_messages_retention,
        delivered_messages_retention :=
          if self.database.delivered_messages_retention.isNone then
            other.database.delivered_messages_retention
          else self.database.delivered_messages_retention },
    messages_processor :=
      { message_delivery_timeout :=
          if self.messages_processor.message_delivery_timeout.isNone then
            other.messages_processor.message_delivery_timeout
          else self.messages_processor.message_delivery_timeout,
        workers_count :=
          if self.messages_processor.workers_count.isNone then
            other.messages_processor.workers_count
          else self.messages_processor.workers_count },
    networking :=
      { client_protocols :=
          if self.networking.client_protocols.isNone then
            other.networking.client_protocols
          else self.networking.client_protocols,
        restful_port :=
          if self.networking.restful_port.isNone then other.networking.restful_port
          else self.networking.restful_port },
    retry_policy :=
      { default_interval :=
          if self.retry_policy.default_interval.isNone then
            other.retry_policy.default_interval
          else self.retry_policy.default_interval,
        default_max_attempts :=
          if self.retry_policy.default_max_attempts.isNone then
            other.retry_policy.default_max_attempts
          else self.retry_policy.default_max_attempts,
        max_interval_limit :=
          if self.retry_policy.max_interval_limit.isNone then
            other.retry_policy.max_interval_limit
          else self.retry_policy.max_interval_limit,
        max_attempts_limit :=
          if self.retry_policy.max_attempts_limit.isNone then
            other.retry_policy.max_attempts_limit
          else self.retry_policy.max_attempts_limit } }

/-! Helper lemmas and sample data. -/

/-- A set optional field survives a fill-gaps update; an unset one adopts
the source's value. -/
theorem fill_field {α : Type} (o o' : Option α) :
    (o.isSome = true → (if o.isNone then o' else o) = o) ∧
    (o = none → (if o.isNone then o' else o) = o') := by
  cases o <;> simp

/-- A fully populated configuration, with the values of the sample
properties file of the repository's tests. -/
def cfgFile : Configuration :=
  { cluster :=
      { auth_key := some (strOf "abcd1234"),
        controller_host := some (strOf "webhooks.my-web.services"),
        request_timeout := some (Duration.milliseconds 10000) },
    database :=
      { dead_messages_retention := some (Duration.seconds 2592000),
        delivered_messages_retention := some (Duration.seconds 2592000) },
    messages_processor :=
      { message_delivery_timeout := some (Duration.milliseconds 10000),
        workers_count := some 500 },
    networking :=
      { client_protocols := some [strOf "restful"], restful_port := some 80 },
    retry_policy :=
      { default_interval := some ⟨[Duration.seconds 86400], Duration.seconds 86400⟩,
        default_max_attempts := some 7,
        max_interval_limit := some (Duration.seconds 2592000),
        max_attempts_limit := some 20 } }

/-- A second populated configuration standing for an environment override. -/
def cfgEnv : Configuration :=
  { cluster :=
      { auth_key := some (strOf "env-key"),
        controller_host := some (strOf "env-host"),
        request_timeout := some (Duration.milliseconds 1) },
    database :=
      { dead_messages_retention := some (Duration.seconds 86400),
        delivered_messages_retention := some (Duration.seconds 86400) },
    messages_processor :=
      { message_delivery_timeout := some (Duration.milliseconds 1),
        workers_count := some 1 },
    networking :=
      { client_protocols := some [strOf "env"], restful_port := some 8080 },
    retry_policy :=
      { default_interval := some ⟨[Duration.seconds 3600], Duration.seconds 3600⟩,
        default_max_attempts := some 1,
        max_interval_limit := some (Duration.seconds 3600),
        max_attempts_limit := some 1 } }

/-! The claims. -/

/-- C1: `merge(target, source)` is fill-gaps-only. For every target and
source configuration and for each of the thirteen leaf fields across the
five groups, a target field that is set keeps its pre-merge value and a
target field that is unset adopts the source's value for that field (which
may itself be absent). In particular a fully populated target is left
entirely unchanged, whatever the source; `merge` is a total function, so
it never fails. -/
theorem merge_fill_gaps_only (t s : Configuration) :
    ((t.cluster.auth_key.isSome = true →
        (t.merge s).cluster.auth_key = t.cluster.auth_key) ∧
      (t.cluster.auth_key = none →
        (t.merge s).cluster.auth_key = s.cluster.auth_key)) ∧
    ((t.cluster.controller_host.isSome = true →
        (t.merge s).cluster.controller_host = t.cluster.controller_host) ∧
      (t.cluster.controller_host = none →
        (t.merge s).cluster.controller_host = s.cluster.controller_host)) ∧
    ((t.cluster.request_timeout.isSome = true →
        (t.merge s).cluster.request_timeout = t.cluster.request_timeout) ∧
      (t.cluster.request_timeout = none →
        (t.merge s).cluster.request_timeout = s.cluster.request_timeout)) ∧
    ((t.database.dead_messages_retention.isSome = true →
        (t.merge s).database.dead_messages_retention = t.database.dead_messages_retention) ∧
      (t.database.dead_messages_retention = none →
        (t.merge s).database.dead_messages_retention = s.database.dead_messages_retention)) ∧
    ((t.database.delivered_messages_retention.isSome = true →
        (t.merge s).database.delivered_messages_retention =
          t.database.delivered_messages_retention) ∧
      (t.database.delivered_messages_retention = none →
        (t.merge s).database.delivered_messages_retention =
          s.database.delivered_messages_retention)) ∧
    ((t.messages_processor.message_delivery_timeout.isSome = true →
        (t.merge s).messages_processor.message_delivery_timeout =
          t.messages_processor.message_delivery_timeout) ∧
      (t.messages_processor.message_delivery_timeout = none →
        (t.merge s).messages_processor.message_delivery_timeout =
          s.messages_processor.message_delivery_timeout)) ∧
    ((t.messages_processor.workers_count.isSome = true →
        (t.merge s).messages_processor.workers_count =
          t.messages_processor.workers_count) ∧
      (t.messages_processor.workers_count = none →
        (t.merge s).messages_processor.workers_count =
          s.messages_processor.workers_count)) ∧
    ((t.networking.client_protocols.isSome = true →
        (t.merge s).networking.client_protocols = t.networking.client_protocols) ∧
      (t.networking.client_protocols = none →
        (t.merge s).networking.client_protocols = s.networking.client_protocols)) ∧
    ((t.networking.restful_port.isSome = true →
        (t.merge s).networking.restful_port = t.networking.restful_port) ∧
      (t.networking.restful_port = none →
        (t.merge s).networking.restful_port = s.networking.restful_port)) ∧
    ((t.retry_policy.default_interval.isSome = true →
        (t.merge s).retry_policy.default_interval = t.retry_policy.default_interval) ∧
      (t.retry_policy.default_interval = none →
        (t.merge s).retry_policy.default_interval = s.retry_policy.default_interval)) ∧
    ((t.retry_policy.default_max_attempts.isSome = true →
        (t.merge s).retry_policy.default_max_attempts =
          t.retry_policy.default_max_attempts) ∧
      (t.retry_policy.default_max_attempts = none →
        (t.merge s).retry_policy.default_max_attempts =
          s.retry_policy.default_max_attempts)) ∧
    ((t.retry_policy.max_interval_limit.isSome = true →
        (t.merge s).retry_policy.max_interval_limit = t.retry_policy.max_interval_limit) ∧
      (t.retry_policy.max_interval_limit = none →
        (t.merge s).retry_policy.max_interval_limit = s.retry_policy.max_interval_limit)) ∧
    ((t.retry_policy.max_attempts_limit.isSome = true →
        (t.merge s).retry_policy.max_attempts_limit = t.retry_policy.max_attempts_limit) ∧
      (t.retry_policy.max_attempts_limit = none →
        (t.merge s).retry_policy.max_attempts_limit = s.retry_policy.max_attempts_limit)) :=
  ⟨fill_field _ _, fill_field _ _, fill_field _ _, fill_field _ _, fill_field _ _,
   fill_field _ _, fill_field _ _, fill_field _ _, fill_field _ _, fill_field _ _,
   fill_field _ _, fill_field _ _, fill_field _ _⟩

/-- C1 witness: a populated target field wins over the source, an unset
one adopts the source's value. -/
theorem merge_fill_gaps_only_witness :
    (cfgFile.merge cfgEnv).cluster.auth_key = cfgFile.cluster.auth_key ∧
    (Configuration.new.merge cfgEnv).cluster.auth_key = cfgEnv.cluster.auth_key :=
  ⟨(merge_fill_gaps_only cfgFile cfgEnv).1.1 rfl,
   (merge_fill_gaps_only Configuration.new cfgEnv).1.2 rfl⟩

/-- A fold of the checked add over an error stays that error. -/
theorem sumChecked_foldl_error (l : List Duration) (p : String) :
    l.foldl (fun acc d => acc.bind (fun a => Duration.checkedAdd a d))
      (Except.error p : Except String Duration) = Except.error p := by
  induction l with
  | nil => rfl
  | cons d ds ih => exact ih

/-- A successful checked sum is the exact arithmetic sum. -/
theorem sumChecked_ok_nanos (l : List Duration) (a t : Duration)
    (h : l.foldl (fun acc d => acc.bind (fun x => Duration.checkedAdd x d))
      (Except.ok a : Except String Duration) = Except.ok t) :
    t.nanos = a.nanos + (l.map Duration.nanos).sum := by
  induction l generalizing a with
  | nil =>
    injection h with h'
    subst h'
    simp
  | cons d ds ih =>
    by_cases hr : DURATION_MIN_NANOS ≤ a.nanos + d.nanos ∧
        a.nanos + d.nanos ≤ DURATION_MAX_NANOS
    · have hstep : (Except.ok a).bind (fun x => Duration.checkedAdd x d) =
          (.ok (⟨a.nanos + d.nanos⟩ : Duration) : Except String Duration) := by
        show Duration.checkedAdd a d = _
        unfold Duration.checkedAdd
        rw [if_pos hr]
      rw [List.foldl_cons, hstep] at h
      have hind := ih ⟨a.nanos + d.nanos⟩ h
      simp only [List.map_cons, List.sum_cons] at hind ⊢
      omega
    · have hstep : (Except.ok a).bind (fun x => Duration.checkedAdd x d) =
          (.error overflowAdding : Except String Duration) := by
        show Duration.checkedAdd a d = _
        unfold Duration.checkedAdd
        rw [if_neg hr]
      rw [List.foldl_cons, hstep, sumChecked_foldl_error] at h
      exact absurd h (by simp)

/-- C7: `from_vec []` fails with `EmptySequence`; a sequence built by a
successful `from_vec` has length at least 1 and a cached total equal to
the exact arithmetic sum of its elements; a successful `push` appends one
element, keeps the total equal to the sum, and raises the total by
exactly the pushed duration (the crate's `+=` panics instead of ever
producing a wrong total when the addition overflows). -/
theorem duration_sequence_invariant :
    DurationSequence.from_vec [] = .ok (.error .EmptySequence) ∧
    (∀ (l : List Duration) (s : DurationSequence),
      DurationSequence.from_vec l = .ok (.ok s) →
      1 ≤ s.sequence.length ∧
      s.total_duration.nanos = (s.sequence.map Duration.nanos).sum) ∧
    (∀ (s s' : DurationSequence) (d : Duration),
      DurationSequence.push s d = .ok s' →
      s'.sequence = s.sequence ++ [d] ∧
      (s.total_duration.nanos = (s.sequence.map Duration.nanos).sum →
        s'.total_duration.nanos = (s'.sequence.map Duration.nanos).sum) ∧
      s'.total_duration.nanos = s.total_duration.nanos + d.nanos) := by
  refine ⟨rfl, ?_, ?_⟩
  · intro l s h
    unfold DurationSequence.from_vec at h
    by_cases hl : l.length = 0
    · rw [if_pos hl] at h
      exact absurd h (by simp)
    · rw [if_neg hl] at h
      cases hsum : Duration.sumChecked l with
      | error p => rw [hsum] at h; exact absurd h (by simp)
      | ok t =>
        rw [hsum] at h
        injection h with h'
        injection h' with h''
        rw [← h'']
        refine ⟨Nat.one_le_iff_ne_zero.mpr hl, ?_⟩
        have := sumChecked_ok_nanos l ⟨0⟩ t hsum
        simpa using this
  · intro s s' d h
    unfold DurationSequence.push Duration.checkedAdd at h
    by_cases hr : DURATION_MIN_NANOS ≤ s.total_duration.nanos + d.nanos ∧
        s.total_duration.nanos + d.nanos ≤ DURATION_MAX_NANOS
    · rw [if_pos hr] at h
      simp only [Except.map] at h
      injection h with h'
      rw [← h']
      refine ⟨rfl, ?_, rfl⟩
      intro hinv
      simp [hinv]
    · rw [if_neg hr] at h
      exact absurd h (by simp [Except.map])

/-- C7 witness: the invariant holds on a concrete one-element sequence and
a concrete successful push raises the total by the pushed duration. -/
theorem duration_sequence_invariant_witness :
    1 ≤ (DurationSequence.mk [Duration.seconds 1] (Duration.seconds 1)).sequence.length ∧
    (DurationSequence.mk [Duration.seconds 1, Duration.seconds 2]
        (Duration.seconds 3)).total_duration.nanos =
      (DurationSequence.mk [Duration.seconds 1]
        (Duration.seconds 1)).total_duration.nanos + (Duration.seconds 2).nanos :=
  ⟨(duration_sequence_invariant.2.1 [Duration.seconds 1]
      (DurationSequence.mk [Duration.seconds 1] (Duration.seconds 1)) rfl).1,
   (duration_sequence_invariant.2.2
      (DurationSequence.mk [Duration.seconds 1] (Duration.seconds 1))
      (DurationSequence.mk [Duration.seconds 1, Duration.seconds 2] (Duration.seconds 3))
      (Duration.seconds 2) rfl).2.2⟩

/-- C9 counterexample: the sample sequence of the specification parses to a
total of 695400 seconds (193 hours and 10 minutes), which is not equal to
8 days = 8 * 86400 = 691200 seconds, so the total does not equal 8 days
exactly. -/
theorem sample_sequence_total_ne_eight_days :
    (to_duration_sequence (strOf "[5m, 5m, 1h, 12h, 36h, 1d, 1d, 1d, 3d]")).map
        (fun r => r.map (fun q => q.total_duration)) =
      .ok (.ok (Duration.seconds 695400)) ∧
    Duration.seconds 695400 ≠ Duration.seconds (8 * 86400) := by
  exact ⟨rfl, by decide⟩

/-- C9 amended: the sample sequence parses successfully; its cached total is
695400 seconds, whose truncation to whole days (`Duration::whole_days`, as
the repository's test asserts) equals 8, though the total itself exceeds
8 days by 4200 seconds. -/
theorem sample_sequence_total :
    (to_duration_sequence (strOf "[5m, 5m, 1h, 12h, 36h, 1d, 1d, 1d, 3d]")).map
        (fun r => r.map (fun q => q.total_duration)) =
      .ok (.ok (Duration.seconds 695400)) ∧
    (Duration.seconds 695400).whole_days = 8 ∧
    (Duration.seconds 695400).whole_hours = 193 := by
  exact ⟨rfl, by decide, by decide⟩

/-- C5: the builder accepts the value `"0"` for `msgproc.workers`,
`net.client.restful.port` and `retryPolicy.limit.maxAttempts`, storing the
field as `Some 0`, although the code's own panic messages require an
integer `>= 1` for each of the three keys: the decode rule does not fail on
a non-positive integer. -/
theorem from_map_accepts_zero :
    (Configuration.from_map (PropMap.single (strOf "msgproc.workers") (strOf "0"))).map
        (fun c => c.messages_processor.workers_count) = .ok (some 0) ∧
    (Configuration.from_map
        (PropMap.single (strOf "net.client.restful.port") (strOf "0"))).map
        (fun c => c.networking.restful_port) = .ok (some 0) ∧
    (Configuration.from_map
        (PropMap.single (strOf "retryPolicy.limit.maxAttempts") (strOf "0"))).map
        (fun c => c.retry_policy.max_attempts_limit) = .ok (some 0) := by
  exact ⟨rfl, rfl, rfl⟩

/-- C3 counterexample: two maps whose `msgproc.workers` values are the
distinct undecodable strings `"abc"` and `"xyz"` make the builder fail with
the identical panic message, so the failure does not identify the raw
value, and it is a panic (modelled as a bare message) rather than a
returned `ParseFailure` value. -/
theorem from_map_same_error_for_distinct_raw_values :
    Configuration.from_map (PropMap.single (strOf "msgproc.workers") (strOf "abc")) =
      .error "msgproc.workers should be integer >= 1" ∧
    Configuration.from_map (PropMap.single (strOf "msgproc.workers") (strOf "xyz")) =
      .error "msgproc.workers should be integer >= 1" ∧
    strOf "abc" ≠ strOf "xyz" := by
  exact ⟨rfl, rfl, by decide⟩

/-- Every sequence reachable through the construction path the claim
describes: a successful `from_vec`, extended by any number of successful
`push`es. -/
inductive BuiltSeq : DurationSequence → Prop where
  | from_vec_ok (l : List Duration) (s : DurationSequence) :
      DurationSequence.from_vec l = .ok (.ok s) → BuiltSeq s
  | push_step (s s' : DurationSequence) (d : Duration) :
      BuiltSeq s → DurationSequence.push s d = .ok s' → BuiltSeq s'

/-- A reachable sequence is never empty. -/
theorem BuiltSeq.ne_nil {s : DurationSequence} (h : BuiltSeq s) : s.sequence ≠ [] := by
  induction h with
  | from_vec_ok l s hfv =>
    unfold DurationSequence.from_vec at hfv
    by_cases hl : l.length = 0
    · rw [if_pos hl] at hfv
      exact absurd hfv (by simp)
    · rw [if_neg hl] at hfv
      cases hsum : Duration.sumChecked l with
      | error p => rw [hsum] at hfv; exact absurd hfv (by simp)
      | ok t =>
        rw [hsum] at hfv
        injection hfv with h1
        injection h1 with h2
        rw [← h2]
        simpa [← List.length_pos] using Nat.pos_of_ne_zero hl
  | push_step s s' d _ hp ih =>
    unfold DurationSequence.push at hp
    cases hadd : Duration.checkedAdd s.total_duration d with
    | error p => rw [hadd] at hp; exact absurd hp (by simp [Except.map])
    | ok t =>
      rw [hadd] at hp
      simp only [Except.map] at hp
      injection hp with hp'
      rw [← hp']
      simp

/-- C10: on any sequence obtained from a successful `from_vec` and any
number of `push`es, `get_from_sequence_or_first` returns the element at the
requested index when it is in bounds and the first element otherwise, and
its result is always `some`, so the internal `unwrap` never panics. -/
theorem get_from_sequence_or_first_spec (s : DurationSequence) (h : BuiltSeq s) (i : Nat) :
    (∀ hi : i < s.sequence.length,
      s.get_from_sequence_or_first i = some (s.sequence.get ⟨i, hi⟩)) ∧
    (s.sequence.length ≤ i → s.get_from_sequence_or_first i = s.sequence.head?) ∧
    (s.get_from_sequence_or_first i).isSome = true := by
  have hne := h.ne_nil
  have hhead : s.sequence.get? 0 = s.sequence.head? := by
    cases s.sequence <;> rfl
  refine ⟨?_, ?_, ?_⟩
  · intro hi
    unfold DurationSequence.get_from_sequence_or_first DurationSequence.get_from_sequence
    rw [List.get?_eq_get hi]
  · intro hi
    unfold DurationSequence.get_from_sequence_or_first DurationSequence.get_from_sequence
    rw [List.get?_eq_none.mpr hi, hhead]
  · by_cases hi : i < s.sequence.length
    · unfold DurationSequence.get_from_sequence_or_first DurationSequence.get_from_sequence
      rw [List.get?_eq_get hi]
      rfl
    · unfold DurationSequence.get_from_sequence_or_first DurationSequence.get_from_sequence
      rw [List.get?_eq_none.mpr (Nat.le_of_not_lt hi), hhead]
      cases hs : s.sequence with
      | nil => exact absurd hs hne
      | cons a l => rfl

/-- C10 witness: an out-of-bounds index on a concrete two-element sequence
built by `from_vec` falls back to the first element. -/
theorem get_from_sequence_or_first_spec_witness :
    (DurationSequence.mk [Duration.seconds 1, Duration.seconds 2]
        (Duration.seconds 3)).get_from_sequence_or_first 5 = some (Duration.seconds 1) := by
  have hb : BuiltSeq (DurationSequence.mk [Duration.seconds 1, Duration.seconds 2]
      (Duration.seconds 3)) :=
    BuiltSeq.from_vec_ok [Duration.seconds 1, Duration.seconds 2] _ rfl
  have h := (get_from_sequence_or_first_spec _ hb 5).2.1 (by decide)
  simpa using h

/-- The key `key` is fatal on a bad value: for every raw value that its
decode rule `dec` rejects (without the decode itself panicking), building
a configuration from a map holding exactly that key fails with the expect
panic message `msg`. -/
def keyFatalOnBadValue {α : Type} (key : String) (dec : Str → Except String (Option α))
    (msg : String) : Prop :=
  ∀ v : Str, dec v = .ok none →
    Configuration.from_map (PropMap.single (strOf key) v) = .error msg

/-- A panic raised inside the key's decode itself (the duration crate's
overflow panics) propagates out of the builder with the crate's message,
not with the key's expect message. -/
def keyPanicPropagates {α : Type} (key : String)
    (dec : Str → Except String (Option α)) : Prop :=
  ∀ (v : Str) (p : String), dec v = .error p →
    Configuration.from_map (PropMap.single (strOf key) v) = .error p

/-- C3 amended: for every recognized fallible key, a present value that its
decode rule rejects makes `from_map` panic (modelled as an error result)
with that key's fixed expect message, which names the key and the expected
format; the failure is neither ignored nor replaced by a default. The
panic message does not carry the raw value, and no typed ParseFailure
value is returned — the code panics instead (see the counterexample).
When the decode itself panics first (a numeric overflow inside the
duration crate), that panic propagates with the crate's message instead
of the key's. -/
theorem from_map_panic_on_bad_value :
    keyFatalOnBadValue "cluster.requestTimeout" decodeMilliseconds
      "cluster.requestTimeout should be a time in milliseconds >= 0" ∧
    keyFatalOnBadValue "db.deadMessages.retention" decodeDuration
      "db.deadMessages.retention has a invalid syntax for Duration" ∧
    keyFatalOnBadValue "db.deliveredMessages.retention" decodeDuration
      "db.deliveredMessages.retention has a invalid syntax for Duration" ∧
    keyFatalOnBadValue "msgproc.message_delivery_timeout" decodeMilliseconds
      "msgproc.message_delivery_timeout should be in milliseconds" ∧
    keyFatalOnBadValue "msgproc.workers" decodeUsize
      "msgproc.workers should be integer >= 1" ∧
    keyFatalOnBadValue "net.client.restful.port" decodeU32
      "net.client.restful.port should be a integer >= 1" ∧
    keyFatalOnBadValue "retryPolicy.defaults.interval" decodeDurationSequence
      "retryPolicy.defaults.interval should have a valid DurationSequence syntax. Example: [1m, 5m, 1d]" ∧
    keyFatalOnBadValue "retryPolicy.defaults.maxAttempts" decodeU16
      "retryPolicy.defaults.maxAttempts should be a valid integer >= 0" ∧
    keyFatalOnBadValue "retryPolicy.limit.maxInterval" decodeDuration
      "retryPolicy.limit.maxInterval should have a valid Duration syntax. Example: 30m" ∧
    keyFatalOnBadValue "retryPolicy.limit.maxAttempts" decodeU16
      "retryPolicy.limit.maxAttempts should be a integer >= 1" ∧
    keyPanicPropagates "db.deadMessages.retention" decodeDuration ∧
    keyPanicPropagates "db.deliveredMessages.retention" decodeDuration ∧
    keyPanicPropagates "retryPolicy.defaults.interval" decodeDurationSequence ∧
    keyPanicPropagates "retryPolicy.limit.maxInterval" decodeDuration := by
  refine ⟨?_, ?_, ?_, ?_, ?_, ?_, ?_, ?_, ?_, ?_, ?_, ?_, ?_, ?_⟩ <;>
    first
    | · intro v hv
        simp +decide [Configuration.from_map, PropMap.single, PropMap.get, PropMap.insert,
          PropMap.empty, expectDecode, hv, strOf, bind, Except.bind]
    | · intro v p hv
        simp +decide [Configuration.from_map, PropMap.single, PropMap.get, PropMap.insert,
          PropMap.empty, expectDecode, hv, strOf, bind, Except.bind]

/-- C3 witness: the negative raw value `"-1"` for `msgproc.workers` fails
the unsigned decode rule and surfaces the key's panic message. -/
theorem from_map_panic_on_bad_value_witness :
    Configuration.from_map (PropMap.single (strOf "msgproc.workers") (strOf "-1")) =
      .error "msgproc.workers should be integer >= 1" :=
  from_map_panic_on_bad_value.2.2.2.2.1 (strOf "-1") rfl

/-- The specification's unit multiplier table, in seconds per unit;
`none` for a character that is not a unit letter. -/
def unitSeconds (u : Char) : Option Int :=
  if u = 's' then some 1
  else if u = 'm' then some 60
  else if u = 'h' then some 3600
  else if u = 'd' then some 86400
  else if u = 'w' then some 604800
  else none

/-- The regex captures on a digit string followed by a unit letter. -/
theorem durationCaptures_append (ds : Str) (u : Char) (hne : ds ≠ [])
    (hdig : ds.all isAsciiDigit = true) (hu : (unitSeconds u).isSome = true) :
    durationCaptures (ds ++ [u]) = some (ds, u) := by
  have hcond : (decide (ds ≠ []) && ds.all isAsciiDigit &&
      (decide (u = 's') || decide (u = 'm') || decide (u = 'h') || decide (u = 'd') ||
        decide (u = 'w'))) = true := by
    simp only [Bool.and_eq_true, Bool.or_eq_true, decide_eq_true_eq]
    refine ⟨⟨by simpa using hne, hdig⟩, ?_⟩
    unfold unitSeconds at hu
    split_ifs at hu with h1 h2 h3 h4 h5 <;> simp_all
  unfold durationCaptures
  rw [List.getLast?_concat, List.dropLast_concat]
  exact if_pos hcond

/-- A successful capture inverts to an append decomposition. -/
theorem durationCaptures_some (s : Str) (ds : Str) (u : Char)
    (h : durationCaptures s = some (ds, u)) :
    ds ≠ [] ∧ ds.all isAsciiDigit = true ∧ (unitSeconds u).isSome = true ∧ s = ds ++ [u] := by
  unfold durationCaptures at h
  cases hl : s.getLast? with
  | none => rw [hl] at h; exact absurd h (by simp)
  | some u' =>
    rw [hl] at h
    have h' : (if (decide (s.dropLast ≠ []) && s.dropLast.all isAsciiDigit &&
        (decide (u' = 's') || decide (u' = 'm') || decide (u' = 'h') || decide (u' = 'd') ||
          decide (u' = 'w'))) = true then some (s.dropLast, u') else none) =
        some (ds, u) := h
    by_cases hc : (decide (s.dropLast ≠ []) && s.dropLast.all isAsciiDigit &&
        (decide (u' = 's') || decide (u' = 'm') || decide (u' = 'h') || decide (u' = 'd') ||
          decide (u' = 'w'))) = true
    · rw [if_pos hc] at h'
      simp only [Option.some.injEq, Prod.mk.injEq] at h'
      obtain ⟨hds, hu⟩ := h'
      subst hds; subst hu
      simp only [Bool.and_eq_true, Bool.or_eq_true, decide_eq_true_eq] at hc
      refine ⟨hc.1.1, hc.1.2, ?_, (List.dropLast_append_getLast? _ hl).symm⟩
      rcases hc.2 with ((((h | h) | h) | h) | h) <;> subst h <;> decide
    · rw [if_neg hc] at h'; exact absurd h' (by simp)

/-- `to_duration` after a successful regex capture. -/
theorem to_duration_eq_of_captures (s ds : Str) (u : Char)
    (h : durationCaptures s = some (ds, u)) :
    to_duration s =
      (parseI64 ds).elim (.ok (.error .InvalidSyntax))
        (fun number => unitResult number u) := by
  unfold to_duration
  rw [h]
  change (match parseI64 ds with
    | none => (.ok (.error .InvalidSyntax) :
        Except String (Except DurationSerdeErrors Duration))
    | some number => unitResult number u) = _
  cases parseI64 ds with
  | none => rfl
  | some n => rfl

/-- `str::parse::<i64>` on a pure digit string: the value when it fits the
i64 range, a failure otherwise. -/
theorem parseI64_digits (ds : Str) (hne : ds ≠ []) (hdig : ds.all isAsciiDigit = true) :
    parseI64 ds = if (digitsToNat ds : Int) ≤ I64_MAX then
      some (digitsToNat ds) else none := by
  cases ds with
  | nil => exact absurd rfl hne
  | cons c cs =>
    have hc : isAsciiDigit c = true := by
      simp only [List.all_cons, Bool.and_eq_true] at hdig
      exact hdig.1
    have hcm : ¬ ((c :: cs : Str).head? = some '-') := by
      simp only [List.head?_cons, Option.some.injEq]
      intro h; subst h; exact absurd hc (by decide)
    have hcp : ¬ ((c :: cs : Str).head? = some '+') := by
      simp only [List.head?_cons, Option.some.injEq]
      intro h; subst h; exact absurd hc (by decide)
    unfold parseI64 parseUnsigned
    rw [if_neg hcm, if_neg hcp]
    rw [if_pos (by simp only [Bool.and_eq_true, decide_eq_true_eq]; exact ⟨by simp, hdig⟩)]
    have hiff : digitsToNat (c :: cs) ≤ I64_MAX.toNat ↔
        ((digitsToNat (c :: cs) : Int) ≤ I64_MAX) := by
      unfold I64_MAX; omega
    by_cases hle : (digitsToNat (c :: cs) : Int) ≤ I64_MAX
    · rw [if_pos (hiff.mpr hle), if_pos hle]; rfl
    · rw [if_neg (fun h => hle (hiff.mp h)), if_neg hle]; rfl

/-- C2 counterexample: `"20000000000000w"` matches the grammar and its
numeric portion fits i64, yet the parse neither returns a duration nor
fails with `InvalidSyntax`: `Duration::weeks` panics, because
20000000000000 * 604800 overflows the i64 second count. -/
theorem to_duration_overflow_panics :
    to_duration (strOf "20000000000000w") = .error overflowConstructing ∧
    (20000000000000 : Int) ≤ I64_MAX := by
  exact ⟨rfl, by decide⟩

/-- C2 amended: the Duration parser accepts exactly one or more digits
immediately followed by one unit letter of {s,m,h,d,w}. On a digit string
`ds` followed by unit `u`: a numeric portion beyond the i64 range fails
with `InvalidSyntax`; a value fitting i64 whose product with the unit
length overflows the i64 second count makes the unit constructor panic
with the crate's overflow message; otherwise the result is the duration
of `value(ds) * unitSeconds(u)` seconds. Every string of any other shape
fails with `InvalidSyntax`, as "5x", "5", "h5" and "1h30m" illustrate. -/
theorem to_duration_grammar_spec :
    (∀ (ds : Str) (u : Char) (mult : Int),
      ds ≠ [] → ds.all isAsciiDigit = true → unitSeconds u = some mult →
      to_duration (ds ++ [u]) =
        if (digitsToNat ds : Int) ≤ I64_MAX then
          if I64_MIN ≤ (digitsToNat ds : Int) * mult ∧
              (digitsToNat ds : Int) * mult ≤ I64_MAX then
            .ok (.ok (Duration.seconds (digitsToNat ds * mult)))
          else .error overflowConstructing
        else .ok (.error .InvalidSyntax)) ∧
    (∀ s : Str,
      (¬ ∃ ds u, ds ≠ [] ∧ ds.all isAsciiDigit = true ∧
        (unitSeconds u).isSome = true ∧ s = ds ++ [u]) →
      to_duration s = .ok (.error .InvalidSyntax)) ∧
    to_duration (strOf "5x") = .ok (.error .InvalidSyntax) ∧
    to_duration (strOf "5") = .ok (.error .InvalidSyntax) ∧
    to_duration (strOf "h5") = .ok (.error .InvalidSyntax) ∧
    to_duration (strOf "1h30m") = .ok (.error .InvalidSyntax) := by
  refine ⟨?_, ?_, rfl, rfl, rfl, rfl⟩
  · intro ds u mult hne hdig hmu
    rw [to_duration_eq_of_captures (ds ++ [u]) ds u
      (durationCaptures_append ds u hne hdig (by rw [hmu]; rfl))]
    rw [parseI64_digits ds hne hdig]
    by_cases hle : (digitsToNat ds : Int) ≤ I64_MAX
    · rw [if_pos hle, if_pos hle]
      show unitResult (digitsToNat ds : Int) u =
        (if I64_MIN ≤ (digitsToNat ds : Int) * mult ∧
            (digitsToNat ds : Int) * mult ≤ I64_MAX then
          .ok (.ok (Duration.seconds ((digitsToNat ds : Int) * mult)))
        else .error overflowConstructing)
      have hnn : (0 : Int) ≤ (digitsToNat ds : Int) := Int.ofNat_nonneg _
      unfold unitSeconds at hmu
      split_ifs at hmu with h1 h2 h3 h4 h5
      · subst h1; injection hmu with hm; subst hm
        have hc : I64_MIN ≤ (digitsToNat ds : Int) * 1 ∧
            (digitsToNat ds : Int) * 1 ≤ I64_MAX := by
          rw [mul_one]
          refine ⟨?_, hle⟩
          simp only [I64_MIN]
          omega
        rw [if_pos hc, mul_one]
        rfl
      · subst h2; injection hmu with hm; subst hm
        show Except.map (fun d => (Except.ok d : Except DurationSerdeErrors Duration))
          (Duration.minutes (digitsToNat ds : Int)) = _
        unfold Duration.minutes
        by_cases hr : I64_MIN ≤ (digitsToNat ds : Int) * 60 ∧
            (digitsToNat ds : Int) * 60 ≤ I64_MAX
        · rw [if_pos hr, if_pos hr]; rfl
        · rw [if_neg hr, if_neg hr]; rfl
      · subst h3; injection hmu with hm; subst hm
        show Except.map (fun d => (Except.ok d : Except DurationSerdeErrors Duration))
          (Duration.hours (digitsToNat ds : Int)) = _
        unfold Duration.hours
        by_cases hr : I64_MIN ≤ (digitsToNat ds : Int) * 3600 ∧
            (digitsToNat ds : Int) * 3600 ≤ I64_MAX
        · rw [if_pos hr, if_pos hr]; rfl
        · rw [if_neg hr, if_neg hr]; rfl
      · subst h4; injection hmu with hm; subst hm
        show Except.map (fun d => (Except.ok d : Except DurationSerdeErrors Duration))
          (Duration.days (digitsToNat ds : Int)) = _
        unfold Duration.days
        by_cases hr : I64_MIN ≤ (digitsToNat ds : Int) * 86400 ∧
            (digitsToNat ds : Int) * 86400 ≤ I64_MAX
        · rw [if_pos hr, if_pos hr]; rfl
        · rw [if_neg hr, if_neg hr]; rfl
      · subst h5; injection hmu with hm; subst hm
        show Except.map (fun d => (Except.ok d : Except DurationSerdeErrors Duration))
          (Duration.weeks (digitsToNat ds : Int)) = _
        unfold Duration.weeks
        by_cases hr : I64_MIN ≤ (digitsToNat ds : Int) * 604800 ∧
            (digitsToNat ds : Int) * 604800 ≤ I64_MAX
        · rw [if_pos hr, if_pos hr]; rfl
        · rw [if_neg hr, if_neg hr]; rfl
    · rw [if_neg hle, if_neg hle]
      rfl
  · intro s hno
    unfold to_duration
    cases hc : durationCaptures s with
    | none => rfl
    | some p =>
      exact absurd ⟨p.1, p.2, durationCaptures_some s p.1 p.2 (by rw [hc])⟩ hno

/-- C2 witness: a concrete instance of the grammar law, `"12m"` parses to
720 seconds. -/
theorem to_duration_grammar_spec_witness :
    to_duration (strOf "12m") = .ok (.ok (Duration.seconds 720)) := by
  have h := to_duration_grammar_spec.1 (strOf "12") 'm' 60 (by decide) (by decide) rfl
  rw [if_pos (by decide), if_pos (by decide)] at h
  have hv : ((digitsToNat (strOf "12") : Int) * 60) = 720 := by decide
  rw [hv] at h
  exact h

/-- A second count within i64 gives an in-range nanosecond count. -/
theorem seconds_in_range (n : Int) (hl : I64_MIN ≤ n) (hr : n ≤ I64_MAX) :
    I64_MIN * NANOS_PER_SEC ≤ (Duration.seconds n).nanos ∧
    (Duration.seconds n).nanos ≤ I64_MAX * NANOS_PER_SEC := by
  simp only [Duration.seconds, I64_MIN, I64_MAX, NANOS_PER_SEC] at *
  constructor <;> omega

/-- Every duration `to_duration` returns has an i64-representable second
count, so a later checked addition starting from zero accepts it. -/
theorem to_duration_ok_bounds (s : Str) (d : Duration)
    (h : to_duration s = .ok (.ok d)) :
    I64_MIN * NANOS_PER_SEC ≤ d.nanos ∧ d.nanos ≤ I64_MAX * NANOS_PER_SEC := by
  cases hc : durationCaptures s with
  | none =>
    unfold to_duration at h
    rw [hc] at h
    exact absurd h (by simp)
  | some p =>
    obtain ⟨hne, hdig, hu, hs⟩ := durationCaptures_some s p.1 p.2 (by rw [hc])
    rw [to_duration_eq_of_captures s p.1 p.2 (by rw [hc])] at h
    rw [parseI64_digits p.1 hne hdig] at h
    by_cases hle : (digitsToNat p.1 : Int) ≤ I64_MAX
    · rw [if_pos hle] at h
      have hnn : (0 : Int) ≤ (digitsToNat p.1 : Int) := Int.ofNat_nonneg _
      have h' : unitResult (digitsToNat p.1 : Int) p.2 = .ok (.ok d) := h
      unfold unitResult at h'
      split at h'
      · injection h' with h1
        injection h1 with h2
        rw [← h2]
        exact seconds_in_range _ (by simp only [I64_MIN]; omega) hle
      · unfold Duration.minutes at h'
        by_cases hg : I64_MIN ≤ (digitsToNat p.1 : Int) * 60 ∧
            (digitsToNat p.1 : Int) * 60 ≤ I64_MAX
        · rw [if_pos hg] at h'
          simp only [Except.map] at h'
          injection h' with h1
          injection h1 with h2
          rw [← h2]
          exact seconds_in_range _ hg.1 hg.2
        · rw [if_neg hg] at h'
          exact absurd h' (by simp [Except.map])
      · unfold Duration.hours at h'
        by_cases hg : I64_MIN ≤ (digitsToNat p.1 : Int) * 3600 ∧
            (digitsToNat p.1 : Int) * 3600 ≤ I64_MAX
        · rw [if_pos hg] at h'
          simp only [Except.map] at h'
          injection h' with h1
          injection h1 with h2
          rw [← h2]
          exact seconds_in_range _ hg.1 hg.2
        · rw [if_neg hg] at h'
          exact absurd h' (by simp [Except.map])
      · unfold Duration.days at h'
        by_cases hg : I64_MIN ≤ (digitsToNat p.1 : Int) * 86400 ∧
            (digitsToNat p.1 : Int) * 86400 ≤ I64_MAX
        · rw [if_pos hg] at h'
          simp only [Except.map] at h'
          injection h' with h1
          injection h1 with h2
          rw [← h2]
          exact seconds_in_range _ hg.1 hg.2
        · rw [if_neg hg] at h'
          exact absurd h' (by simp [Except.map])
      · unfold Duration.weeks at h'
        by_cases hg : I64_MIN ≤ (digitsToNat p.1 : Int) * 604800 ∧
            (digitsToNat p.1 : Int) * 604800 ≤ I64_MAX
        · rw [if_pos hg] at h'
          simp only [Except.map] at h'
          injection h' with h1
          injection h1 with h2
          rw [← h2]
          exact seconds_in_range _ hg.1 hg.2
        · rw [if_neg hg] at h'
          exact absurd h' (by simp [Except.map])
      · exact absurd h' (by simp)
    · rw [if_neg hle] at h
      exact absurd h (by simp)

/-- `from_vec([d]).unwrap()` succeeds on any in-range duration: the one
checked addition from zero cannot overflow, and the vector is not empty. -/
theorem fromVecUnwrap_singleton (d : Duration)
    (hb : I64_MIN * NANOS_PER_SEC ≤ d.nanos ∧ d.nanos ≤ I64_MAX * NANOS_PER_SEC) :
    fromVecUnwrap [d] = .ok (.ok ⟨[d], d⟩) := by
  have hadd : Duration.checkedAdd ⟨0⟩ d = .ok d := by
    unfold Duration.checkedAdd
    rw [if_pos (by
      simp only [DURATION_MIN_NANOS, DURATION_MAX_NANOS, I64_MIN, I64_MAX,
        NANOS_PER_SEC] at hb ⊢
      obtain ⟨h1, h2⟩ := hb
      constructor <;> omega)]
    cases d
    simp
  have hsum : Duration.sumChecked [d] = .ok d := by
    show Duration.checkedAdd ⟨0⟩ d = .ok d
    exact hadd
  unfold fromVecUnwrap DurationSequence.from_vec
  rw [if_neg (by simp), hsum]
  rfl

/-- C8 counterexample: the bracketless token `"20000000000000w"` makes the
whole sequence parse panic inside `Duration::weeks` (numeric overflow),
where the claim predicts an `InvalidSyntax` failure for a token the
Duration parser does not accept. -/
theorem to_duration_sequence_overflow_token_panics :
    to_duration_sequence (strOf "20000000000000w") = .error overflowConstructing ∧
    startsWithCh (strOf "20000000000000w") '[' = false := by
  exact ⟨rfl, rfl⟩

/-- C8 amended: an input that does not both start with `[` and end with `]`
is treated as one token handed to the Duration parser: a success is
wrapped in a one-element sequence whose cached total is that duration, a
grammar failure is `InvalidSyntax` for the whole parse, and a panic inside
the Duration parser (numeric overflow in a unit constructor) propagates as
a panic — so a comma-separated list without brackets is rejected. -/
theorem to_duration_sequence_single_token (s : Str)
    (h : ¬(startsWithCh s '[' = true ∧ endsWithCh s ']' = true)) :
    to_duration_sequence s =
      (to_duration s).map
        (fun r => r.map (fun d => { sequence := [d], total_duration := d })) := by
  have hcond : (!(startsWithCh s '[') || !(endsWithCh s ']')) = true := by
    rcases not_and_or.mp h with h' | h' <;>
      · simp only [Bool.not_eq_true] at h'
        simp [h']
  unfold to_duration_sequence
  rw [if_pos hcond]
  cases hd : to_duration s with
  | error p => rfl
  | ok r =>
    cases r with
    | error e => rfl
    | ok d =>
      show fromVecUnwrap [d] = _
      rw [fromVecUnwrap_singleton d (to_duration_ok_bounds s d hd)]
      rfl

/-- C8 witness: the bracketless comma list `"5m, 1h"` is rejected. -/
theorem to_duration_sequence_single_token_witness :
    to_duration_sequence (strOf "5m, 1h") = .ok (.error .InvalidSyntax) := by
  rw [to_duration_sequence_single_token (strOf "5m, 1h") (by decide)]
  rfl

/-- The claim's per-piece rule for a bracketed sequence: parse every
(already trimmed) piece with the Duration parser, keep the order, and
stop at the first grammar failure or panic. -/
def parseAllPieces : List Str → Except String (Except DurationSerdeErrors (List Duration))
  | [] => .ok (.ok [])
  | t :: ts =>
    match to_duration t with
    | .error p => .error p
    | .ok (.error e) => .ok (.error e)
    | .ok (.ok d) =>
      match parseAllPieces ts with
      | .error p => .error p
      | .ok (.error e) => .ok (.error e)
      | .ok (.ok ds) => .ok (.ok (d :: ds))

/-- A successful per-piece parse keeps one duration per piece. -/
theorem parseAllPieces_length (ts : List Str) (l : List Duration)
    (h : parseAllPieces ts = .ok (.ok l)) : l.length = ts.length := by
  induction ts generalizing l with
  | nil =>
    unfold parseAllPieces at h
    injection h with h1
    injection h1 with h2
    subst h2
    rfl
  | cons t ts ih =>
    unfold parseAllPieces at h
    cases hd : to_duration t with
    | error p => rw [hd] at h; exact absurd h (by simp)
    | ok r =>
      rw [hd] at h
      cases r with
      | error e => exact absurd h (by simp)
      | ok d =>
        cases hr : parseAllPieces ts with
        | error p => rw [hr] at h; exact absurd h (by simp)
        | ok rr =>
          rw [hr] at h
          cases rr with
          | error e => exact absurd h (by simp)
          | ok ds =>
            injection h with h1
            injection h1 with h2
            rw [← h2]
            simp [ih ds hr]

/-- `splitCh` never yields an empty piece list. -/
theorem splitCh_ne_nil (sep : Char) (s : Str) : splitCh sep s ≠ [] := by
  cases s with
  | nil => simp [splitCh]
  | cons c cs =>
    unfold splitCh
    by_cases h : c = sep
    · simp [h]
    · rw [if_neg h]
      cases splitCh sep cs <;> simp

/-- The loop of `to_duration_sequence` agrees with the claim's per-piece
rule applied to the trimmed pieces. -/
theorem parsePieces_eq (ts : List Str) :
    parsePieces ts = parseAllPieces (ts.map trim) := by
  induction ts with
  | nil => rfl
  | cons t ts ih =>
    rw [List.map_cons]
    unfold parsePieces parseAllPieces
    rw [ih]

/-- C4 amended: on a bracket-delimited input the parser strips all leading
and trailing bracket characters (`trim_matches`), not exactly one pair,
splits the remainder on `,`, trims each piece and parses it with the
Duration parser. The first piece failing the grammar aborts the whole
parse with `InvalidSyntax`; a panic inside a unit constructor propagates;
on success the result is the ordered sequence of the parsed durations
whose checked sum is the cached total, and an overflow of that sum also
panics. Hence `"[[5m]]"` succeeds (see the counterexample) instead of
failing. -/
theorem to_duration_sequence_bracketed (s : Str)
    (h1 : startsWithCh s '[' = true) (h2 : endsWithCh s ']' = true) :
    (∀ (l : List Duration) (t : Duration),
      parseAllPieces ((splitCh ',' (trimMatchesBrackets s)).map trim) = .ok (.ok l) →
      Duration.sumChecked l = .ok t →
      to_duration_sequence s = .ok (.ok { sequence := l, total_duration := t })) ∧
    (∀ e, parseAllPieces ((splitCh ',' (trimMatchesBrackets s)).map trim) =
        .ok (.error e) →
      to_duration_sequence s = .ok (.error e)) ∧
    (∀ p, parseAllPieces ((splitCh ',' (trimMatchesBrackets s)).map trim) = .error p →
      to_duration_sequence s = .error p) ∧
    (∀ (l : List Duration) (p : String),
      parseAllPieces ((splitCh ',' (trimMatchesBrackets s)).map trim) = .ok (.ok l) →
      Duration.sumChecked l = .error p →
      to_duration_sequence s = .error p) := by
  have hcond : ¬((!(startsWithCh s '[') || !(endsWithCh s ']')) = true) := by
    simp [h1, h2]
  refine ⟨?_, ?_, ?_, ?_⟩
  · intro l t hl ht
    unfold to_duration_sequence
    rw [if_neg hcond]
    change (match parsePieces (splitCh ',' (trimMatchesBrackets s)) with
      | Except.error p => (Except.error p :
          Except String (Except DurationSerdeErrors DurationSequence))
      | Except.ok (Except.error e) => Except.ok (Except.error e)
      | Except.ok (Except.ok duration_seq) =>
        if duration_seq.length < 1 then
          Except.ok (Except.error DurationSerdeErrors.InvalidSyntax)
        else fromVecUnwrap duration_seq) = _
    rw [parsePieces_eq, hl]
    have hpos : 0 < l.length := by
      rw [parseAllPieces_length _ _ hl, List.length_map]
      exact List.length_pos.mpr (splitCh_ne_nil _ _)
    show (if l.length < 1 then (.ok (.error .InvalidSyntax) :
        Except String (Except DurationSerdeErrors DurationSequence))
      else fromVecUnwrap l) = _
    rw [if_neg (by omega)]
    unfold fromVecUnwrap DurationSequence.from_vec
    rw [if_neg (by omega), ht]
    rfl
  · intro e hl
    unfold to_duration_sequence
    rw [if_neg hcond]
    change (match parsePieces (splitCh ',' (trimMatchesBrackets s)) with
      | Except.error p => (Except.error p :
          Except String (Except DurationSerdeErrors DurationSequence))
      | Except.ok (Except.error e) => Except.ok (Except.error e)
      | Except.ok (Except.ok duration_seq) =>
        if duration_seq.length < 1 then
          Except.ok (Except.error DurationSerdeErrors.InvalidSyntax)
        else fromVecUnwrap duration_seq) = _
    rw [parsePieces_eq, hl]
  · intro p hl
    unfold to_duration_sequence
    rw [if_neg hcond]
    change (match parsePieces (splitCh ',' (trimMatchesBrackets s)) with
      | Except.error p => (Except.error p :
          Except String (Except DurationSerdeErrors DurationSequence))
      | Except.ok (Except.error e) => Except.ok (Except.error e)
      | Except.ok (Except.ok duration_seq) =>
        if duration_seq.length < 1 then
          Except.ok (Except.error DurationSerdeErrors.InvalidSyntax)
        else fromVecUnwrap duration_seq) = _
    rw [parsePieces_eq, hl]
  · intro l p hl hp
    unfold to_duration_sequence
    rw [if_neg hcond]
    change (match parsePieces (splitCh ',' (trimMatchesBrackets s)) with
      | Except.error p => (Except.error p :
          Except String (Except DurationSerdeErrors DurationSequence))
      | Except.ok (Except.error e) => Except.ok (Except.error e)
      | Except.ok (Except.ok duration_seq) =>
        if duration_seq.length < 1 then
          Except.ok (Except.error DurationSerdeErrors.InvalidSyntax)
        else fromVecUnwrap duration_seq) = _
    rw [parsePieces_eq, hl]
    have hpos : 0 < l.length := by
      rw [parseAllPieces_length _ _ hl, List.length_map]
      exact List.length_pos.mpr (splitCh_ne_nil _ _)
    show (if l.length < 1 then (.ok (.error .InvalidSyntax) :
        Except String (Except DurationSerdeErrors DurationSequence))
      else fromVecUnwrap l) = _
    rw [if_neg (by omega)]
    unfold fromVecUnwrap DurationSequence.from_vec
    rw [if_neg (by omega), hp]

/-- C4 counterexample: `"[[5m]]"` parses successfully to the one-element
sequence holding 5 minutes (300 seconds), because `trim_matches` strips
every outer bracket character, so the claim's prediction of an
`InvalidSyntax` failure after stripping exactly one pair is false. -/
theorem to_duration_sequence_double_brackets_ok :
    to_duration_sequence (strOf "[[5m]]") =
      .ok (.ok { sequence := [Duration.seconds 300],
                 total_duration := Duration.seconds 300 }) := by
  rfl

/-- C4 witness: a concrete bracketed list parses to its ordered pieces
with their sum as total. -/
theorem to_duration_sequence_bracketed_witness :
    to_duration_sequence (strOf "[5m, 1h]") =
      .ok (.ok { sequence := [Duration.seconds 300, Duration.seconds 3600],
                 total_duration := Duration.seconds 3900 }) :=
  (to_duration_sequence_bracketed (strOf "[5m, 1h]") rfl rfl).1
    [Duration.seconds 300, Duration.seconds 3600] (Duration.seconds 3900) rfl rfl

/-! Trim and split lemmas for the properties decoders. -/

/-- A trimmed-end list is a prefix of the original. -/
theorem trimEnd_prefix (s : Str) : trimEnd s <+: s := by
  unfold trimEnd
  obtain ⟨t, ht⟩ : (s.reverse.dropWhile isRustWhitespace) <:+ s.reverse :=
    List.dropWhile_suffix _
  refine ⟨t.reverse, ?_⟩
  have := congrArg List.reverse ht
  simpa using this

/-- Dropping leading whitespace again changes nothing. -/
theorem trimStart_idem (s : Str) : trimStart (trimStart s) = trimStart s :=
  List.dropWhile_idempotent _ _

/-- Dropping trailing whitespace again changes nothing. -/
theorem trimEnd_idem (s : Str) : trimEnd (trimEnd s) = trimEnd s := by
  unfold trimEnd
  rw [List.reverse_reverse, List.dropWhile_idempotent]

/-- The head of a `dropWhile` result falsifies the predicate. -/
theorem dropWhile_head_false (p : Char → Bool) (l : Str) (a : Char) (rest : Str)
    (h : l.dropWhile p = a :: rest) : p a = false := by
  induction l with
  | nil => exact absurd h (by simp)
  | cons c cs ih =>
    rw [List.dropWhile_cons] at h
    by_cases hc : p c = true
    · rw [if_pos hc] at h
      exact ih h
    · rw [if_neg hc] at h
      injection h with h1 _
      cases hpc : p c with
      | true => exact absurd hpc hc
      | false => rw [← h1]; exact hpc

/-- A list with no leading whitespace keeps none after losing a suffix:
`trimStart` fixes `trimEnd (trimStart s)`. -/
theorem trimStart_trimEnd_trimStart (s : Str) :
    trimStart (trimEnd (trimStart s)) = trimEnd (trimStart s) := by
  cases hte : trimEnd (trimStart s) with
  | nil => rfl
  | cons a l =>
    have hpre : trimEnd (trimStart s) <+: trimStart s := trimEnd_prefix _
    obtain ⟨t, ht⟩ := hpre
    rw [hte] at ht
    have hhead : isRustWhitespace a = false :=
      dropWhile_head_false isRustWhitespace s a (l ++ t) ht.symm
    unfold trimStart
    rw [List.dropWhile_cons, if_neg (by simp [hhead])]

/-- Rust `trim` is idempotent. -/
theorem trim_trim (s : Str) : trim (trim s) = trim s := by
  unfold trim
  rw [trimStart_trimEnd_trimStart, trimEnd_idem]

/-- A split has at least two pieces exactly when the separator occurs. -/
theorem splitCh_two_pieces_iff (sep : Char) (s : Str) :
    2 ≤ (splitCh sep s).length ↔ sep ∈ s := by
  induction s with
  | nil => simp [splitCh]
  | cons c cs ih =>
    unfold splitCh
    by_cases h : c = sep
    · subst h
      have := splitCh_ne_nil c cs
      simp only [if_pos rfl]
      constructor
      · intro _; exact List.mem_cons_self c cs
      · intro _
        have : 1 ≤ (splitCh c cs).length := by
          cases hc : splitCh c cs with
          | nil => exact absurd hc this
          | cons p ps => simp
        simpa using this
    · rw [if_neg h]
      cases hc : splitCh sep cs with
      | nil => exact absurd hc (splitCh_ne_nil _ _)
      | cons p ps =>
        have hlen : (splitCh sep cs).length = ps.length + 1 := by rw [hc]; rfl
        constructor
        · intro hge
          have : 2 ≤ (splitCh sep cs).length := by
            rw [hlen]; simpa using hge
          exact List.mem_cons_of_mem c (ih.mp this)
        · intro hmem
          have hmem' : sep ∈ cs := by
            cases List.mem_cons.mp hmem with
            | inl he => exact absurd he.symm h
            | inr hm => exact hm
          have := ih.mpr hmem'
          rw [hlen] at this
          simpa using this

/-- The record rule the claim states, applied to one record: `none` when
the record is skipped, and the key/value pair it binds otherwise. The
record is trimmed; a record that then starts with `#`, or is empty, or
contains no `=`, is skipped; otherwise the first `=`-segment is the key
and the remaining segments rejoined with `=` and trimmed are the value. -/
def claimRecordKV (record : Str) : Option (Str × Str) :=
  if startsWithCh (trim record) '#' || (trim record).isEmpty then none
  else if !((trim record).contains '=') then none
  else
    match splitCh '=' (trim record) with
    | k :: rest => some (k, trim (joinCh '=' rest))
    | [] => none

/-- One step of the claim-side lookup over the records, newest binding
winning. -/
def claimStep (key : Str) (acc : Option Str) (r : Str) : Option Str :=
  match claimRecordKV r with
  | some (k, v) => if k = key then some v else acc
  | none => acc

/-- The claim-side lookup: the value of the last surviving record binding
the key, scanning all records in order. -/
def claimLookup (records : List Str) (key : Str) : Option Str :=
  records.foldl (claimStep key) none

/-- `insertRecord` behaves on lookups exactly as the claim's record rule. -/
theorem insertRecord_get (m : PropMap) (r : Str) (key : Str) :
    (insertRecord m r).get key =
      match claimRecordKV r with
      | some (k, v) => if k = key then some v else m.get key
      | none => m.get key := by
  unfold insertRecord claimRecordKV
  rw [trim_trim]
  by_cases hcom : startsWithCh (trim r) '#' = true
  · rw [if_pos hcom]
    have : (startsWithCh (trim r) '#' || (trim r).isEmpty) = true := by simp [hcom]
    rw [if_pos this]
  · rw [if_neg hcom]
    cases hsp : splitCh '=' (trim r) with
    | nil => exact absurd hsp (splitCh_ne_nil _ _)
    | cons k rest =>
      cases rest with
      | nil =>
        have hnc : ¬(2 ≤ (splitCh '=' (trim r)).length) := by rw [hsp]; simp
        have hnotmem : ¬('=' ∈ trim r) := fun hm =>
          hnc ((splitCh_two_pieces_iff '=' (trim r)).mpr hm)
        by_cases hemp : (trim r).isEmpty = true
        · rw [if_pos (by simp [hemp])]
        · rw [if_neg (by simp [hcom, hemp]), if_pos (by simp [hnotmem])]
      | cons v vs =>
        have hmem : '=' ∈ trim r := by
          refine (splitCh_two_pieces_iff '=' (trim r)).mp ?_
          rw [hsp]; simp
        have hemp : (trim r).isEmpty = false := by
          cases htr : trim r with
          | nil => rw [htr] at hmem; exact absurd hmem (by simp)
          | cons a l => rfl
        rw [if_neg (by simp [hcom, hemp]), if_neg (by simp [hmem])]
        show (m.insert k (trim (joinCh '=' (v :: vs)))).get key =
          if k = key then some (trim (joinCh '=' (v :: vs))) else m.get key
        unfold PropMap.get PropMap.insert
        by_cases hk : k = key
        · subst hk; simp
        · rw [if_neg (fun he => hk he.symm), if_neg hk]

/-- Restarting the claim-side fold from any accumulator only changes the
result when no later record binds the key. -/
theorem claimLookup_fold (key : Str) (rs : List Str) (a : Option Str) :
    rs.foldl (claimStep key) a =
      match rs.foldl (claimStep key) none with
      | some v => some v
      | none => a := by
  induction rs generalizing a with
  | nil => rfl
  | cons r rs ih =>
    show rs.foldl (claimStep key) (claimStep key a r) =
      match rs.foldl (claimStep key) (claimStep key none r) with
      | some v => some v
      | none => a
    rw [ih (claimStep key a r), ih (claimStep key none r)]
    cases rs.foldl (claimStep key) none with
    | some v => rfl
    | none =>
      show claimStep key a r =
        match claimStep key none r with
        | some v => some v
        | none => a
      unfold claimStep
      cases claimRecordKV r with
      | none => rfl
      | some kv =>
        by_cases hk : kv.1 = key
        · simp [hk]
        · simp [hk]

/-- The decoder's fold over the records agrees with the claim-side lookup,
from any starting map. -/
theorem foldl_insertRecord_get (key : Str) (rs : List Str) (m : PropMap) :
    (rs.foldl insertRecord m).get key =
      match claimLookup rs key with
      | some v => some v
      | none => m.get key := by
  induction rs generalizing m with
  | nil => rfl
  | cons r rs ih =>
    show (rs.foldl insertRecord (insertRecord m r)).get key = _
    rw [ih (insertRecord m r)]
    unfold claimLookup
    show _ = match rs.foldl (claimStep key) (claimStep key none r) with
      | some v => some v
      | none => m.get key
    rw [claimLookup_fold key rs (claimStep key none r)]
    cases rs.foldl (claimStep key) none with
    | some v => rfl
    | none =>
      show (insertRecord m r).get key =
        match claimStep key none r with
        | some v => some v
        | none => m.get key
      rw [insertRecord_get]
      unfold claimStep
      cases claimRecordKV r with
      | none => rfl
      | some kv =>
        by_cases hk : kv.1 = key
        · simp [hk]
        · simp [hk]

/-- C6: both properties decoders follow the claim's record rule: records
are split on the decoder's separator (newline or semicolon) and trimmed; a
record that then starts with `#`, or is empty, or contains no `=`, is
skipped; any other record binds its first `=`-segment to the remaining
segments rejoined with `=` and trimmed (so `"a=b=c"` binds `"a"` to
`"b=c"`); a later record with the same key overwrites an earlier one, the
lookup returning the last surviving binding. -/
theorem properties_decoders_record_rule (content key : Str) :
    (properties_file_content_to_map content).get key =
      claimLookup (splitCh '\n' content) key ∧
    (properties_separate_by_semicolon_to_map content).get key =
      claimLookup (splitCh ';' content) key := by
  refine ⟨?_, ?_⟩
  · unfold properties_file_content_to_map
    rw [foldl_insertRecord_get]
    cases claimLookup (splitCh '\n' content) key <;> rfl
  · unfold properties_separate_by_semicolon_to_map
    rw [foldl_insertRecord_get]
    cases claimLookup (splitCh ';' content) key <;> rfl

end Angler
